import Mathlib

/-!
Shallow embedding of `test-extruder-spring.py`, a g-code generator that
prints a calibration pattern measuring extruder springiness.

Modelling choices:
* Python floats are modelled as real numbers (`ℝ`); `math.sqrt`, `math.sin`,
  `math.cos`, `math.pi` become `Real.sqrt`, `Real.sin`, `Real.cos`, `Real.pi`.
* The module-level constants of the script become the fields of a
  `Config` record; `defaultConfig` holds exactly the values in the source.
* Output lines become a structured `Cmd` type, one constructor per line
  shape of the emitted g-code.  The `dwell` constructor corresponds to the
  `G4 P` line shape of the output format; the generator itself never builds
  one, which is exactly what claim C10 is about.
* The mutable cursor object `ToolPos` is threaded explicitly: a program
  fragment is a function `ToolPos → ToolPos × List Cmd` returning the new
  cursor and the lines it printed, and fragments are composed with `seq` /
  `runAll` in source order.
-/

open scoped Real

/-- The cursor object of the script (`class ToolPos`): a base offset used to
center the pattern, the current position relative to that base, and the
cumulative extrusion length. -/
@[ext]
structure ToolPos where
  baseX : ℝ
  baseY : ℝ
  currentX : ℝ
  currentY : ℝ
  currentE : ℝ

/-- One emitted output line.  Each constructor records the numeric payload of
one of the line shapes the script prints:
`setF f` is the line `G1 F<f>`, `moveXY x y` is `G1 X<x> Y<y>`,
`moveXYE x y e` is `G1 X<x> Y<y> E<e>`, `moveZ z` is `G1 Z<z>`,
`dwell p` is `G4 P<p>` (part of the recognized output format, never produced
by this script), and `raw s` is a literal text block (comments, header,
footer). -/
inductive Cmd where
  | setF (f : ℝ)
  | moveXY (x y : ℝ)
  | moveXYE (x y e : ℝ)
  | moveZ (z : ℝ)
  | dwell (p : ℕ)
  | raw (s : String)

/-- The module-level configuration constants of the script.  `testtry` and
`semicirclepoints` are loop counts (`range(...)` bounds) and so are naturals;
every other numeric constant is used as a float. -/
structure Config where
  filamentwidth : ℝ
  extrudewidth : ℝ
  extrudez : ℝ
  bedx : ℝ
  bedy : ℝ
  extraz : ℝ
  testspeeds : List ℝ
  testlength : ℝ
  testtry : ℕ
  lanewidth : ℝ
  rulerspeed : ℝ
  semicirclepoints : ℕ
  repositionspeed : ℝ
  repositionzspeed : ℝ
  repositionz : ℝ

/-- The constant values assigned at the top of the script. -/
def defaultConfig : Config where
  filamentwidth := 1.75
  extrudewidth := 0.40
  extrudez := 0.3
  bedx := 200
  bedy := 250
  extraz := 0.0
  testspeeds := [20, 40, 60, 80, 100, 120]
  testlength := 20
  testtry := 3
  lanewidth := 5
  rulerspeed := 10
  semicirclepoints := 10
  repositionspeed := 40
  repositionzspeed := 10
  repositionz := 1.0

/-- Embeds `EXTRUSIONMULT=(EXTRUDEZ * EXTRUDEWIDTH) / (math.pi * (FILAMENTWIDTH/2)**2)`. -/
noncomputable def EXTRUSIONMULT (cfg : Config) : ℝ :=
  (cfg.extrudez * cfg.extrudewidth) / (Real.pi * (cfg.filamentwidth / 2) ^ 2)

/-- The `STARTG` header block emitted verbatim at the start of the run. -/
def STARTG : String :=
  "\n; This is a calibration print for testing extruder springiness.\nG21\nG90\nG92 E0\n"

/-- The `ENDG` footer block emitted verbatim at the end of the run. -/
def ENDG : String :=
  "\nM104 S0 ; turn off temperature\nM140 S0 ; turn of HBP\nM84     ; disable motors\n"

/-- A program fragment: it consumes the cursor and yields the updated cursor
together with the list of lines it printed, in order. -/
abbrev Prog := ToolPos → ToolPos × List Cmd

/-- The empty fragment: prints nothing, leaves the cursor unchanged. -/
def skip : Prog := fun s => (s, [])

/-- Sequential composition, in source order: run `p`, then run `q` on the
cursor `p` left behind; output is concatenated. -/
def seq (p q : Prog) : Prog :=
  fun s => ((q (p s).1).1, (p s).2 ++ (q (p s).1).2)

/-- Run a list of fragments in order. -/
def runAll : List Prog → Prog
  | [] => skip
  | p :: ps => seq p (runAll ps)

/-- Embeds `output(msg)`: print one line, cursor untouched. -/
def emit (c : Cmd) : Prog := fun s => (s, [c])

/-- Embeds `setspeed(speed)`: emits `G1 F<speed*60>`. -/
def setspeed (speed : ℝ) : Prog := emit (Cmd.setF (speed * 60))

/-- Embeds `moveabs(coord, x, y, e=None)`: emits a move to `(base + (x,y))`, sets the
current position to `(x, y)`, and, when `e` is given, also stores and emits
the absolute extrusion length `e`. -/
def moveabs (x y : ℝ) (e : Option ℝ) : Prog := fun s =>
  match e with
  | none =>
      ({ s with currentX := x, currentY := y },
       [Cmd.moveXY (s.baseX + x) (s.baseY + y)])
  | some ev =>
      ({ s with currentX := x, currentY := y, currentE := ev },
       [Cmd.moveXYE (s.baseX + x) (s.baseY + y) ev])

/-- Embeds `moverel(coord, x, y, ext=None)`: when the `ext` marker is present its
value is discarded and replaced by
`coord.currentE + math.sqrt(x*x+y*y)*EXTRUSIONMULT`; then `moveabs` is called
on `current + (x, y)`. -/
noncomputable def moverel (cfg : Config) (x y : ℝ) (ext : Option ℝ) : Prog := fun s =>
  match ext with
  | none => moveabs (s.currentX + x) (s.currentY + y) none s
  | some _ =>
      moveabs (s.currentX + x) (s.currentY + y)
        (some (s.currentE + Real.sqrt (x * x + y * y) * EXTRUSIONMULT cfg)) s

/-- One iteration of the `semicircle` loop: move (relative) from wherever the
cursor currently is to the absolute sample point
`start + (sin(rads*(i+1))*x, cos(rads*(i+1))*(-y/2) + y/2)`. -/
noncomputable def semistep (cfg : Config) (x y startx starty : ℝ) (ext : Option ℝ)
    (i : ℕ) : Prog := fun s =>
  moverel cfg
    (startx + Real.sin (Real.pi / ((cfg.semicirclepoints : ℝ) + 1) * ((i : ℝ) + 1)) * x
      - s.currentX)
    (starty + (Real.cos (Real.pi / ((cfg.semicirclepoints : ℝ) + 1) * ((i : ℝ) + 1)) * (-y / 2)
      + y / 2) - s.currentY)
    ext s

/-- The closing move of `semicircle`: from wherever the cursor is to the exact
endpoint `(startx, starty + y)`. -/
noncomputable def semiclose (cfg : Config) (y startx starty : ℝ) (ext : Option ℝ) : Prog :=
  fun s => moverel cfg (startx - s.currentX) (starty + y - s.currentY) ext s

/-- Embeds `semicircle(coord, x, y, ext=None)`: `SEMICIRCLEPOINTS` relative moves to
equally spaced sample points of a half circle computed from the entry
position, followed by one closing move to `(startx, starty + y)`. -/
noncomputable def semicircle (cfg : Config) (x y : ℝ) (ext : Option ℝ) : Prog := fun s =>
  runAll
    ((List.range cfg.semicirclepoints).map
        (semistep cfg x y s.currentX s.currentY ext)
      ++ [semiclose cfg y s.currentX s.currentY ext]) s

/-- Embeds `reposition(coord, x, y)`: raise the head, travel to absolute `(x, y)`,
lower the head, with the configured speeds. -/
noncomputable def reposition (cfg : Config) (x y : ℝ) : Prog :=
  runAll
    [setspeed cfg.repositionzspeed,
     emit (Cmd.moveZ (cfg.extrudez + cfg.extraz + cfg.repositionz)),
     setspeed cfg.repositionspeed,
     moveabs x y none,
     setspeed cfg.repositionzspeed,
     emit (Cmd.moveZ (cfg.extrudez + cfg.extraz))]

/-- Embeds `totaly = (numlanes * 2 + 1 + 3) * LANEWIDTH` where `numlanes = len(TESTSPEEDS)`. -/
def totaly (cfg : Config) : ℝ :=
  ((cfg.testspeeds.length : ℝ) * 2 + 1 + 3) * cfg.lanewidth

/-- Embeds `totalx = TESTLENGTH * (TESTTRY*2 + 1) + 4 * LANEWIDTH`. -/
def totalx (cfg : Config) : ℝ :=
  cfg.testlength * ((cfg.testtry : ℝ) * 2 + 1) + 4 * cfg.lanewidth

/-- The cursor as `main` sets it up before emitting anything: base offset
`((BEDX-totalx)/2, (BEDY-totaly)/2)`, current position and extrusion zero. -/
noncomputable def initState (cfg : Config) : ToolPos where
  baseX := (cfg.bedx - totalx cfg) / 2
  baseY := (cfg.bedy - totaly cfg) / 2
  currentX := 0
  currentY := 0
  currentE := 0

/-- Lines 104–111 of the script: header, prime comment, reposition to the
origin, and the priming stroke with its semicircular turn. -/
noncomputable def primePhase (cfg : Config) : List Prog :=
  [emit (Cmd.raw STARTG),
   emit (Cmd.raw "; Prime extruder"),
   reposition cfg 0 0,
   setspeed cfg.rulerspeed,
   moverel cfg (totalx cfg - cfg.lanewidth) 0 (some 1),
   semicircle cfg cfg.lanewidth (2 * cfg.lanewidth) (some 1),
   moverel cfg (-cfg.lanewidth) 0 (some 1)]

/-- Lines 113–122 of the script: the leading ruler.  `TESTTRY` repetitions of
down-stroke / long move / up-stroke / long move, then a trailing
down-stroke / long move / up-stroke and a short horizontal move. -/
noncomputable def startRuler (cfg : Config) : List Prog :=
  emit (Cmd.raw "; Start ruler") ::
    ((List.range cfg.testtry).flatMap (fun _ =>
        [moverel cfg 0 (-cfg.lanewidth) (some 1),
         moverel cfg (-cfg.testlength) 0 (some 1),
         moverel cfg 0 cfg.lanewidth (some 1),
         moverel cfg (-cfg.testlength) 0 (some 1)])
      ++ [moverel cfg 0 (-cfg.lanewidth) (some 1),
          moverel cfg (-cfg.testlength) 0 (some 1),
          moverel cfg 0 cfg.lanewidth (some 1),
          moverel cfg (-cfg.lanewidth) 0 (some 1)])

/-- Lines 124–125 of the script: the semicircular turn and short move that
connect the leading ruler to the first test lane. -/
noncomputable def preLaneTurn (cfg : Config) : List Prog :=
  [semicircle cfg (-(cfg.lanewidth / 2)) cfg.lanewidth (some 1),
   moverel cfg cfg.lanewidth 0 (some 1)]

/-- The body of the lane loop (lines 128–149) for lane index `i` at test
speed `v`: a forward lane of `TESTTRY` travel/extrude segment pairs plus one
travel segment, a semicircular turn, the mirrored return lane, and a second
turn back to the lane start column. -/
noncomputable def laneBody (cfg : Config) (i : ℕ) (v : ℝ) : List Prog :=
  [emit (Cmd.raw ("; Start run " ++ toString i)),
   setspeed v]
  ++ (List.range cfg.testtry).flatMap (fun _ =>
      [moverel cfg cfg.testlength 0 none,
       moverel cfg cfg.testlength 0 (some 1)])
  ++ [moverel cfg cfg.testlength 0 none,
      setspeed cfg.rulerspeed,
      moverel cfg cfg.lanewidth 0 (some 1),
      semicircle cfg (cfg.lanewidth / 2) cfg.lanewidth (some 1),
      moverel cfg (-cfg.lanewidth) 0 (some 1),
      setspeed v]
  ++ (List.range cfg.testtry).flatMap (fun _ =>
      [moverel cfg (-cfg.testlength) 0 none,
       moverel cfg (-cfg.testlength) 0 (some 1)])
  ++ [moverel cfg (-cfg.testlength) 0 none,
      setspeed cfg.rulerspeed,
      moverel cfg (-cfg.lanewidth) 0 (some 1),
      semicircle cfg (-(cfg.lanewidth / 2)) cfg.lanewidth (some 1),
      moverel cfg cfg.lanewidth 0 (some 1)]

/-- Lines 127–149 of the script: `for i in range(numlanes)` running the lane
body on `TESTSPEEDS[i]`; iterating indices `0..len-1` with `TESTSPEEDS[i]`
is iteration over the enumerated speed list. -/
noncomputable def lanePhase (cfg : Config) : List Prog :=
  cfg.testspeeds.enum.flatMap (fun p => laneBody cfg p.1 p.2)

/-- Lines 151–160 of the script: the trailing ruler, the leading ruler
mirrored (strokes up first, long moves in `+x`), ending with a double-width
horizontal move. -/
noncomputable def endRuler (cfg : Config) : List Prog :=
  emit (Cmd.raw "; Start ruler") ::
    ((List.range cfg.testtry).flatMap (fun _ =>
        [moverel cfg 0 cfg.lanewidth (some 1),
         moverel cfg cfg.testlength 0 (some 1),
         moverel cfg 0 (-cfg.lanewidth) (some 1),
         moverel cfg cfg.testlength 0 (some 1)])
      ++ [moverel cfg 0 cfg.lanewidth (some 1),
          moverel cfg cfg.testlength 0 (some 1),
          moverel cfg 0 (-cfg.lanewidth) (some 1),
          moverel cfg (cfg.lanewidth * 2) 0 (some 1)])

/-- The whole of `main` after the cursor is set up: every phase in source
order, ending with the footer block. -/
noncomputable def mainProg (cfg : Config) : Prog :=
  runAll
    (primePhase cfg ++ startRuler cfg ++ preLaneTurn cfg ++ lanePhase cfg
      ++ endRuler cfg ++ [emit (Cmd.raw ENDG)])

/-- The complete output of one run of the script for configuration `cfg`. -/
noncomputable def run (cfg : Config) : List Cmd :=
  (mainProg cfg (initState cfg)).2

/-- The cursor state after the full run. -/
noncomputable def finalState (cfg : Config) : ToolPos :=
  (mainProg cfg (initState cfg)).1

/-- The target coordinates carried by a move line, if any. -/
def cmdTarget : Cmd → Option (ℝ × ℝ)
  | Cmd.moveXY x y => some (x, y)
  | Cmd.moveXYE x y _ => some (x, y)
  | _ => none

/-- The absolute extrusion values carried by the extruding moves of an output
stream, in emission order. -/
def extrusionTargets : List Cmd → List ℝ :=
  List.filterMap fun c =>
    match c with
    | Cmd.moveXYE _ _ e => some e
    | _ => none

/-- The feed-rate values carried by the `G1 F` lines of an output stream, in
emission order. -/
def speedVals : List Cmd → List ℝ :=
  List.filterMap fun c =>
    match c with
    | Cmd.setF f => some f
    | _ => none

/-- Whether a line is a dwell (`G4 P`) line. -/
def isDwell : Cmd → Bool
  | Cmd.dwell _ => true
  | _ => false

/-- A fragment never touches the base offset of the cursor. -/
def KeepsBase (p : Prog) : Prop :=
  ∀ s, (p s).1.baseX = s.baseX ∧ (p s).1.baseY = s.baseY

/-- A fragment that never prints a dwell (`G4 P`) line, from any cursor. -/
def NoDwell (p : Prog) : Prop :=
  ∀ s, (p s).2.filter isDwell = []

/-- The extrusion history of one fragment run: the entry value followed by
every absolute extrusion value it emits. -/
def trace (p : Prog) (s : ToolPos) : List ℝ :=
  s.currentE :: extrusionTargets (p s).2

/-- A fragment whose extrusion history is non-decreasing and bounded by the
stored extrusion length it leaves behind, from any cursor. -/
def MonoE (p : Prog) : Prop :=
  ∀ s, List.Chain' (· ≤ ·) (trace p s) ∧ ∀ e ∈ trace p s, e ≤ (p s).1.currentE

/-- The fragment shapes the script is built from: raw text lines, `G1 Z`
lines, speed changes, travel-only absolute moves, relative moves whose
displacement may depend on the cursor, semicircles, and repositions. -/
inductive WF (cfg : Config) : Prog → Prop where
  | raw (str : String) : WF cfg (emit (Cmd.raw str))
  | zmove (z : ℝ) : WF cfg (emit (Cmd.moveZ z))
  | speed (v : ℝ) : WF cfg (setspeed v)
  | travelabs (x y : ℝ) : WF cfg (moveabs x y none)
  | mrel (f g : ToolPos → ℝ) (ext : Option ℝ) :
      WF cfg (fun s => moverel cfg (f s) (g s) ext s)
  | semi (x y : ℝ) (ext : Option ℝ) : WF cfg (semicircle cfg x y ext)
  | repos (x y : ℝ) : WF cfg (reposition cfg x y)

/-- A configuration whose pattern bounding box is `140 × 73`, used to check
the centering scenario of the spec on a `200 × 250` bed. -/
noncomputable def centeringCfg : Config :=
  { defaultConfig with
      testspeeds := [20]
      testtry := 1
      testlength := 274 / 9
      lanewidth := 73 / 6 }

/-- A configuration whose pattern bounding box exceeds the bed: the bed is
`1 × 250` while the pattern needs `160` units of X. -/
def oversizeCfg : Config :=
  { defaultConfig with bedx := 1 }

/-- The fixed round-trip configuration of the spec scenario: bed `200 × 250`,
speeds `[20, 40, 60]`, segment length `20`, repeat `3`. -/
def roundTripCfg : Config :=
  { defaultConfig with testspeeds := [20, 40, 60] }

/-- A fragment that displaces the cursor by a fixed vector `(dx, dy)`
whatever the entry cursor is. -/
def PosEff (p : Prog) (dx dy : ℝ) : Prop :=
  ∀ s, (p s).1.currentX = s.currentX + dx ∧ (p s).1.currentY = s.currentY + dy

/-- A fragment that never prints a `G1 F` line, from any cursor. -/
def NoSpeed (p : Prog) : Prop :=
  ∀ s, speedVals (p s).2 = []

/-- The cursor after the first `i` iterations of the lane loop, starting the
lane phase from cursor `s`. -/
noncomputable def laneEntryState (cfg : Config) (s : ToolPos) (i : ℕ) : ToolPos :=
  (runAll ((cfg.testspeeds.enum.take i).flatMap (fun p => laneBody cfg p.1 p.2)) s).1

/-- The lane-phase scenario configuration of the spec: `TESTSPEEDS = [20, 40]`
and `TESTTRY = 2`. -/
def laneCfg : Config :=
  { defaultConfig with testspeeds := [20, 40], testtry := 2 }

/-- The sequence of move targets (bed coordinates) of an output stream. -/
def targets (l : List Cmd) : List (ℝ × ℝ) :=
  l.filterMap cmdTarget

/-- Number of perpendicular strokes in a point sequence: steps whose X is
unchanged and whose Y changes, starting the walk at the seed point. -/
noncomputable def perpCount : ℝ × ℝ → List (ℝ × ℝ) → ℕ
  | _, [] => 0
  | p, q :: rest => (if p.1 = q.1 ∧ p.2 ≠ q.2 then 1 else 0) + perpCount q rest

/-- The leading-ruler counterexample configuration: one repeat. -/
def rulerCexCfg : Config :=
  { defaultConfig with testtry := 1 }

lemma seq_fst (p q : Prog) (s : ToolPos) : (seq p q s).1 = (q (p s).1).1 := rfl

lemma seq_snd (p q : Prog) (s : ToolPos) : (seq p q s).2 = (p s).2 ++ (q (p s).1).2 := rfl

lemma runAll_nil (s : ToolPos) : runAll [] s = (s, []) := rfl

lemma runAll_cons (p : Prog) (ps : List Prog) (s : ToolPos) :
    runAll (p :: ps) s = seq p (runAll ps) s := rfl

lemma runAll_append (l₁ l₂ : List Prog) (s : ToolPos) :
    runAll (l₁ ++ l₂) s = seq (runAll l₁) (runAll l₂) s := by
  induction l₁ generalizing s with
  | nil => simp [runAll, seq, skip]
  | cons p ps ih =>
      simp only [List.cons_append, runAll_cons, seq, ih]
      simp [List.append_assoc]

lemma keepsBase_skip : KeepsBase skip := fun _ => ⟨rfl, rfl⟩

lemma keepsBase_emit (c : Cmd) : KeepsBase (emit c) := fun _ => ⟨rfl, rfl⟩

lemma keepsBase_setspeed (v : ℝ) : KeepsBase (setspeed v) := fun _ => ⟨rfl, rfl⟩

lemma keepsBase_moveabs (x y : ℝ) (e : Option ℝ) : KeepsBase (moveabs x y e) := by
  intro s
  cases e <;> simp [moveabs]

lemma keepsBase_moverelD (cfg : Config) (f g : ToolPos → ℝ) (ext : Option ℝ) :
    KeepsBase (fun s => moverel cfg (f s) (g s) ext s) := by
  intro s
  cases ext <;> simp [moverel, moveabs]

lemma keepsBase_moverel (cfg : Config) (x y : ℝ) (ext : Option ℝ) :
    KeepsBase (moverel cfg x y ext) :=
  keepsBase_moverelD cfg (fun _ => x) (fun _ => y) ext

lemma keepsBase_seq (p q : Prog) (hp : KeepsBase p) (hq : KeepsBase q) :
    KeepsBase (seq p q) := by
  intro s
  refine ⟨((hq (p s).1).1).trans (hp s).1, ((hq (p s).1).2).trans (hp s).2⟩

lemma keepsBase_runAll (ps : List Prog) (h : ∀ p ∈ ps, KeepsBase p) :
    KeepsBase (runAll ps) := by
  induction ps with
  | nil => exact keepsBase_skip
  | cons p ps ih =>
      exact keepsBase_seq _ _ (h p (List.mem_cons_self p ps))
        (ih fun q hq => h q (List.mem_cons_of_mem p hq))

lemma keepsBase_semistep (cfg : Config) (x y sx sy : ℝ) (ext : Option ℝ) (i : ℕ) :
    KeepsBase (semistep cfg x y sx sy ext i) :=
  keepsBase_moverelD cfg _ _ ext

lemma keepsBase_semiclose (cfg : Config) (y sx sy : ℝ) (ext : Option ℝ) :
    KeepsBase (semiclose cfg y sx sy ext) :=
  keepsBase_moverelD cfg _ _ ext

lemma keepsBase_semicircle (cfg : Config) (x y : ℝ) (ext : Option ℝ) :
    KeepsBase (semicircle cfg x y ext) := by
  intro s
  show (runAll _ s).1.baseX = _ ∧ (runAll _ s).1.baseY = _
  refine keepsBase_runAll _ ?_ s
  intro p hp
  rcases List.mem_append.1 hp with hp | hp
  · rcases List.mem_map.1 hp with ⟨i, _, rfl⟩
    exact keepsBase_semistep cfg x y s.currentX s.currentY ext i
  · rcases List.mem_singleton.1 hp with rfl
    exact keepsBase_semiclose cfg y s.currentX s.currentY ext

lemma keepsBase_reposition (cfg : Config) (x y : ℝ) :
    KeepsBase (reposition cfg x y) := by
  refine keepsBase_runAll _ ?_
  intro p hp
  fin_cases hp
  · exact keepsBase_setspeed _
  · exact keepsBase_emit _
  · exact keepsBase_setspeed _
  · exact keepsBase_moveabs _ _ _
  · exact keepsBase_setspeed _
  · exact keepsBase_emit _

lemma runAll_singleton (p : Prog) (s : ToolPos) : runAll [p] s = p s := by
  simp [runAll, seq, skip]

lemma semiclose_fst (cfg : Config) (y sx sy : ℝ) (ext : Option ℝ) (s : ToolPos) :
    (semiclose cfg y sx sy ext s).1.currentX = sx ∧
      (semiclose cfg y sx sy ext s).1.currentY = sy + y := by
  cases ext <;> (refine ⟨?_, ?_⟩ <;> simp [semiclose, moverel, moveabs])

lemma semiclose_out (cfg : Config) (y sx sy : ℝ) (ext : Option ℝ) (s : ToolPos) :
    ∃ c, (semiclose cfg y sx sy ext s).2 = [c] ∧
      cmdTarget c = some (s.baseX + sx, s.baseY + (sy + y)) := by
  cases ext <;> (refine ⟨_, rfl, ?_⟩ <;> simp [semiclose, moverel, moveabs, cmdTarget])

/-- C3: For every start position, every half-width `x`, every height `y`
and every sample count, the semicircular connector leaves the cursor exactly
at `(start.x, start.y + y)`, and the last line it emits is a move whose
target is exactly that endpoint (in bed coordinates, `base + endpoint`). -/
theorem semicircle_final_point (cfg : Config) (x y : ℝ) (ext : Option ℝ) (s : ToolPos) :
    (semicircle cfg x y ext s).1.currentX = s.currentX ∧
    (semicircle cfg x y ext s).1.currentY = s.currentY + y ∧
    ((semicircle cfg x y ext s).2.getLast?.bind cmdTarget) =
      some (s.baseX + s.currentX, s.baseY + (s.currentY + y)) := by
  have hsplit :
      semicircle cfg x y ext s =
        seq (runAll ((List.range cfg.semicirclepoints).map
              (semistep cfg x y s.currentX s.currentY ext)))
          (runAll [semiclose cfg y s.currentX s.currentY ext]) s := by
    show runAll _ s = _
    rw [runAll_append]
  set L := (List.range cfg.semicirclepoints).map (semistep cfg x y s.currentX s.currentY ext)
    with hL
  have hkeep : KeepsBase (runAll L) := by
    refine keepsBase_runAll _ ?_
    intro p hp
    rcases List.mem_map.1 hp with ⟨i, _, rfl⟩
    exact keepsBase_semistep cfg x y s.currentX s.currentY ext i
  set s₁ := (runAll L s).1 with hs₁
  have hfst : (semicircle cfg x y ext s).1 = (semiclose cfg y s.currentX s.currentY ext s₁).1 := by
    rw [hsplit, seq_fst, runAll_singleton]
  have hsnd : (semicircle cfg x y ext s).2 =
      (runAll L s).2 ++ (semiclose cfg y s.currentX s.currentY ext s₁).2 := by
    rw [hsplit, seq_snd, runAll_singleton]
  obtain ⟨c, hc, hct⟩ := semiclose_out cfg y s.currentX s.currentY ext s₁
  have hbase := hkeep s
  refine ⟨?_, ?_, ?_⟩
  · rw [hfst]; exact (semiclose_fst cfg y s.currentX s.currentY ext s₁).1
  · rw [hfst]; exact (semiclose_fst cfg y s.currentX s.currentY ext s₁).2
  · rw [hsnd, hc, List.getLast?_concat, Option.some_bind, hct, hs₁, hbase.1, hbase.2]

/-- C5: A relative move with the extrusion marker present (any value `v`)
emits a move to `current + (dx, dy)` (in bed coordinates, `base +` that)
carrying cumulative extrusion `previous + sqrt(dx² + dy²) * EXTRUSIONMULT`,
and stores that value; with the marker absent the move is travel-only and
the stored extrusion length is unchanged; and the multiplier is exactly
`(layerHeight * beadWidth) / (π * (filamentDiameter/2)²)`. -/
theorem moverel_spec (cfg : Config) (s : ToolPos) (x y v : ℝ) :
    moverel cfg x y (some v) s =
      ({ s with
          currentX := s.currentX + x
          currentY := s.currentY + y
          currentE := s.currentE + Real.sqrt (x * x + y * y) * EXTRUSIONMULT cfg },
        [Cmd.moveXYE (s.baseX + (s.currentX + x)) (s.baseY + (s.currentY + y))
          (s.currentE + Real.sqrt (x * x + y * y) * EXTRUSIONMULT cfg)]) ∧
    moverel cfg x y none s =
      ({ s with currentX := s.currentX + x, currentY := s.currentY + y },
        [Cmd.moveXY (s.baseX + (s.currentX + x)) (s.baseY + (s.currentY + y))]) ∧
    EXTRUSIONMULT cfg =
      (cfg.extrudez * cfg.extrudewidth) / (Real.pi * (cfg.filamentwidth / 2) ^ 2) :=
  ⟨rfl, rfl, rfl⟩

/-- C8: A relative move with zero displacement and the extrusion marker
present leaves the cursor entirely unchanged and emits a move carrying
exactly the previous cumulative extrusion value (`sqrt 0 = 0`, so the delta
is exactly zero: no negative delta and no domain error in the model). -/
theorem moverel_zero_disp (cfg : Config) (s : ToolPos) (v : ℝ) :
    (moverel cfg 0 0 (some v) s).1 = s ∧
    (moverel cfg 0 0 (some v) s).2 =
      [Cmd.moveXYE (s.baseX + s.currentX) (s.baseY + s.currentY) s.currentE] := by
  constructor
  · ext <;> simp [moverel, moveabs]
  · simp [moverel, moveabs]

lemma wf_mrelC (cfg : Config) (x y : ℝ) (ext : Option ℝ) :
    WF cfg (moverel cfg x y ext) :=
  WF.mrel (fun _ => x) (fun _ => y) ext

lemma extrusionTargets_append (l₁ l₂ : List Cmd) :
    extrusionTargets (l₁ ++ l₂) = extrusionTargets l₁ ++ extrusionTargets l₂ :=
  List.filterMap_append l₁ l₂ _

lemma noDwell_seq (p q : Prog) (hp : NoDwell p) (hq : NoDwell q) : NoDwell (seq p q) := by
  intro s
  rw [seq_snd, List.filter_append, hp s, hq (p s).1, List.append_nil]

lemma noDwell_skip : NoDwell skip := fun _ => rfl

lemma noDwell_runAll (ps : List Prog) (h : ∀ p ∈ ps, NoDwell p) : NoDwell (runAll ps) := by
  induction ps with
  | nil => exact noDwell_skip
  | cons p ps ih =>
      exact noDwell_seq _ _ (h p (List.mem_cons_self p ps))
        (ih fun q hq => h q (List.mem_cons_of_mem p hq))

lemma monoE_inert (p : Prog)
    (h : ∀ s, extrusionTargets (p s).2 = [] ∧ (p s).1.currentE = s.currentE) :
    MonoE p := by
  intro s
  obtain ⟨h1, h2⟩ := h s
  refine ⟨?_, ?_⟩
  · simp [trace, h1]
  · intro e he
    simp only [trace, h1, List.mem_singleton] at he
    rw [he, h2]

lemma monoE_seq (p q : Prog) (hp : MonoE p) (hq : MonoE q) : MonoE (seq p q) := by
  intro s
  obtain ⟨hc1, hl1⟩ := hp s
  obtain ⟨hc2, hl2⟩ := hq (p s).1
  have htr : trace (seq p q) s = trace p s ++ extrusionTargets ((q (p s).1).2) := by
    simp [trace, seq_snd, extrusionTargets_append]
  have hfin : (seq p q s).1.currentE = (q (p s).1).1.currentE := rfl
  have hmid : (p s).1.currentE ≤ (q (p s).1).1.currentE :=
    hl2 _ (List.mem_cons_self _ _)
  refine ⟨?_, ?_⟩
  · rw [htr]
    refine hc1.append (by simpa [trace] using hc2.tail) ?_
    intro a ha b hb
    have haMem : a ∈ trace p s := by
      cases htp : trace p s with
      | nil => rw [htp] at ha; simp at ha
      | cons hd tl =>
          rw [htp] at ha
          have : a = (hd :: tl).getLast (by simp) := by
            have := List.getLast?_eq_getLast (hd :: tl) (by simp)
            rw [this] at ha
            simpa using ha.symm
          rw [this]
          exact List.getLast_mem _
    have h₁ : a ≤ (p s).1.currentE := hl1 a haMem
    have h₂ : (p s).1.currentE ≤ b := hc2.rel_head? hb
    exact h₁.trans h₂
  · intro e he
    rw [htr] at he
    rw [hfin]
    rcases List.mem_append.1 he with he | he
    · exact (hl1 e he).trans hmid
    · exact hl2 e (List.mem_cons_of_mem _ he)

lemma monoE_skip : MonoE skip :=
  monoE_inert _ fun _ => ⟨rfl, rfl⟩

lemma monoE_runAll (ps : List Prog) (h : ∀ p ∈ ps, MonoE p) : MonoE (runAll ps) := by
  induction ps with
  | nil => exact monoE_skip
  | cons p ps ih =>
      exact monoE_seq _ _ (h p (List.mem_cons_self p ps))
        (ih fun q hq => h q (List.mem_cons_of_mem p hq))

lemma monoE_moverelD (cfg : Config) (hm : 0 ≤ EXTRUSIONMULT cfg)
    (f g : ToolPos → ℝ) (ext : Option ℝ) :
    MonoE (fun s => moverel cfg (f s) (g s) ext s) := by
  cases ext with
  | none =>
      refine monoE_inert _ fun s => ⟨?_, ?_⟩ <;> simp [moverel, moveabs, extrusionTargets]
  | some v =>
      intro s
      have hstep : 0 ≤ Real.sqrt (f s * f s + g s * g s) * EXTRUSIONMULT cfg :=
        mul_nonneg (Real.sqrt_nonneg _) hm
      constructor
      · simp only [trace, moverel, moveabs, extrusionTargets, List.filterMap]
        refine List.chain'_pair.2 ?_
        linarith
      · intro e he
        simp only [trace, moverel, moveabs, extrusionTargets, List.filterMap,
          List.mem_cons, List.mem_singleton] at he ⊢
        rcases he with he | he | he
        · rw [he]; show _ ≤ s.currentE + _; linarith
        · rw [he]
        · simp at he

lemma monoE_semicircle (cfg : Config) (hm : 0 ≤ EXTRUSIONMULT cfg)
    (x y : ℝ) (ext : Option ℝ) : MonoE (semicircle cfg x y ext) := by
  intro s
  have h : MonoE (runAll
      ((List.range cfg.semicirclepoints).map (semistep cfg x y s.currentX s.currentY ext)
        ++ [semiclose cfg y s.currentX s.currentY ext])) := by
    refine monoE_runAll _ ?_
    intro p hp
    rcases List.mem_append.1 hp with hp | hp
    · rcases List.mem_map.1 hp with ⟨i, _, rfl⟩
      exact monoE_moverelD cfg hm _ _ ext
    · rcases List.mem_singleton.1 hp with rfl
      exact monoE_moverelD cfg hm _ _ ext
  exact h s

lemma noDwell_emitRaw (str : String) : NoDwell (emit (Cmd.raw str)) := fun _ => rfl

lemma noDwell_emitZ (z : ℝ) : NoDwell (emit (Cmd.moveZ z)) := fun _ => rfl

lemma noDwell_setspeed (v : ℝ) : NoDwell (setspeed v) := fun _ => rfl

lemma noDwell_moveabs (x y : ℝ) (e : Option ℝ) : NoDwell (moveabs x y e) := by
  intro s
  cases e <;> rfl

lemma noDwell_moverelD (cfg : Config) (f g : ToolPos → ℝ) (ext : Option ℝ) :
    NoDwell (fun s => moverel cfg (f s) (g s) ext s) := by
  intro s
  cases ext <;> rfl

lemma noDwell_semicircle (cfg : Config) (x y : ℝ) (ext : Option ℝ) :
    NoDwell (semicircle cfg x y ext) := by
  intro s
  have h : NoDwell (runAll
      ((List.range cfg.semicirclepoints).map (semistep cfg x y s.currentX s.currentY ext)
        ++ [semiclose cfg y s.currentX s.currentY ext])) := by
    refine noDwell_runAll _ ?_
    intro p hp
    rcases List.mem_append.1 hp with hp | hp
    · rcases List.mem_map.1 hp with ⟨i, _, rfl⟩
      exact noDwell_moverelD cfg _ _ ext
    · rcases List.mem_singleton.1 hp with rfl
      exact noDwell_moverelD cfg _ _ ext
  exact h s

lemma noDwell_reposition (cfg : Config) (x y : ℝ) : NoDwell (reposition cfg x y) := by
  refine noDwell_runAll _ ?_
  intro p hp
  fin_cases hp
  · exact noDwell_setspeed _
  · exact noDwell_emitZ _
  · exact noDwell_setspeed _
  · exact noDwell_moveabs _ _ _
  · exact noDwell_setspeed _
  · exact noDwell_emitZ _

lemma monoE_reposition (cfg : Config) (x y : ℝ) : MonoE (reposition cfg x y) := by
  refine monoE_runAll _ ?_
  intro p hp
  fin_cases hp
  · exact monoE_inert _ fun _ => ⟨rfl, rfl⟩
  · exact monoE_inert _ fun _ => ⟨rfl, rfl⟩
  · exact monoE_inert _ fun _ => ⟨rfl, rfl⟩
  · exact monoE_inert _ fun _ => ⟨rfl, rfl⟩
  · exact monoE_inert _ fun _ => ⟨rfl, rfl⟩
  · exact monoE_inert _ fun _ => ⟨rfl, rfl⟩

lemma wf_noDwell (cfg : Config) {p : Prog} (h : WF cfg p) : NoDwell p := by
  cases h with
  | raw str => exact noDwell_emitRaw str
  | zmove z => exact noDwell_emitZ z
  | speed v => exact noDwell_setspeed v
  | travelabs x y => exact noDwell_moveabs x y none
  | mrel f g ext => exact noDwell_moverelD cfg f g ext
  | semi x y ext => exact noDwell_semicircle cfg x y ext
  | repos x y => exact noDwell_reposition cfg x y

lemma wf_monoE (cfg : Config) (hm : 0 ≤ EXTRUSIONMULT cfg) {p : Prog} (h : WF cfg p) :
    MonoE p := by
  cases h with
  | raw str => exact monoE_inert _ fun _ => ⟨rfl, rfl⟩
  | zmove z => exact monoE_inert _ fun _ => ⟨rfl, rfl⟩
  | speed v => exact monoE_inert _ fun _ => ⟨rfl, rfl⟩
  | travelabs x y => exact monoE_inert _ fun _ => ⟨rfl, rfl⟩
  | mrel f g ext => exact monoE_moverelD cfg hm f g ext
  | semi x y ext => exact monoE_semicircle cfg hm x y ext
  | repos x y => exact monoE_reposition cfg x y

lemma wf_keepsBase (cfg : Config) {p : Prog} (h : WF cfg p) : KeepsBase p := by
  cases h with
  | raw str => exact keepsBase_emit _
  | zmove z => exact keepsBase_emit _
  | speed v => exact keepsBase_setspeed v
  | travelabs x y => exact keepsBase_moveabs x y none
  | mrel f g ext => exact keepsBase_moverelD cfg f g ext
  | semi x y ext => exact keepsBase_semicircle cfg x y ext
  | repos x y => exact keepsBase_reposition cfg x y

lemma wf_primePhase (cfg : Config) : ∀ p ∈ primePhase cfg, WF cfg p := by
  intro p hp
  fin_cases hp
  · exact WF.raw _
  · exact WF.raw _
  · exact WF.repos 0 0
  · exact WF.speed _
  · exact wf_mrelC cfg _ _ _
  · exact WF.semi _ _ _
  · exact wf_mrelC cfg _ _ _

lemma wf_startRuler (cfg : Config) : ∀ p ∈ startRuler cfg, WF cfg p := by
  intro p hp
  rcases List.mem_cons.1 hp with rfl | hp
  · exact WF.raw _
  rcases List.mem_append.1 hp with hp | hp
  · rcases List.mem_flatMap.1 hp with ⟨i, _, hmem⟩
    fin_cases hmem <;> exact wf_mrelC cfg _ _ _
  · fin_cases hp <;> exact wf_mrelC cfg _ _ _

lemma wf_preLaneTurn (cfg : Config) : ∀ p ∈ preLaneTurn cfg, WF cfg p := by
  intro p hp
  fin_cases hp
  · exact WF.semi _ _ _
  · exact wf_mrelC cfg _ _ _

lemma wf_laneBody (cfg : Config) (i : ℕ) (v : ℝ) : ∀ p ∈ laneBody cfg i v, WF cfg p := by
  intro p hp
  rcases List.mem_append.1 hp with hp | hp
  · rcases List.mem_append.1 hp with hp | hp
    · rcases List.mem_append.1 hp with hp | hp
      · rcases List.mem_append.1 hp with hp | hp
        · fin_cases hp
          · exact WF.raw _
          · exact WF.speed _
        · rcases List.mem_flatMap.1 hp with ⟨j, _, hmem⟩
          fin_cases hmem <;> exact wf_mrelC cfg _ _ _
      · fin_cases hp
        · exact wf_mrelC cfg _ _ _
        · exact WF.speed _
        · exact wf_mrelC cfg _ _ _
        · exact WF.semi _ _ _
        · exact wf_mrelC cfg _ _ _
        · exact WF.speed _
    · rcases List.mem_flatMap.1 hp with ⟨j, _, hmem⟩
      fin_cases hmem <;> exact wf_mrelC cfg _ _ _
  · fin_cases hp
    · exact wf_mrelC cfg _ _ _
    · exact WF.speed _
    · exact wf_mrelC cfg _ _ _
    · exact WF.semi _ _ _
    · exact wf_mrelC cfg _ _ _

lemma wf_lanePhase (cfg : Config) : ∀ p ∈ lanePhase cfg, WF cfg p := by
  intro p hp
  simp only [lanePhase, List.mem_flatMap] at hp
  rcases hp with ⟨q, _, hmem⟩
  exact wf_laneBody cfg q.1 q.2 p hmem

lemma wf_endRuler (cfg : Config) : ∀ p ∈ endRuler cfg, WF cfg p := by
  intro p hp
  rcases List.mem_cons.1 hp with rfl | hp
  · exact WF.raw _
  rcases List.mem_append.1 hp with hp | hp
  · rcases List.mem_flatMap.1 hp with ⟨i, _, hmem⟩
    fin_cases hmem <;> exact wf_mrelC cfg _ _ _
  · fin_cases hp <;> exact wf_mrelC cfg _ _ _

lemma wf_mainList (cfg : Config) :
    ∀ p ∈ primePhase cfg ++ startRuler cfg ++ preLaneTurn cfg ++ lanePhase cfg
      ++ endRuler cfg ++ [emit (Cmd.raw ENDG)], WF cfg p := by
  intro p hp
  simp only [List.mem_append, List.mem_singleton] at hp
  rcases hp with ⟨⟨⟨⟨hp | hp⟩ | hp⟩ | hp⟩ | hp⟩ | rfl
  · exact wf_primePhase cfg p hp
  · exact wf_startRuler cfg p hp
  · exact wf_preLaneTurn cfg p hp
  · exact wf_lanePhase cfg p hp
  · exact wf_endRuler cfg p hp
  · exact WF.raw _

lemma keepsBase_mainProg (cfg : Config) : KeepsBase (mainProg cfg) :=
  keepsBase_runAll _ fun p hp => wf_keepsBase cfg (wf_mainList cfg p hp)

lemma noDwell_mainProg (cfg : Config) : NoDwell (mainProg cfg) :=
  noDwell_runAll _ fun p hp => wf_noDwell cfg (wf_mainList cfg p hp)

lemma monoE_mainProg (cfg : Config) (hm : 0 ≤ EXTRUSIONMULT cfg) : MonoE (mainProg cfg) :=
  monoE_runAll _ fun p hp => wf_monoE cfg hm (wf_mainList cfg p hp)

/-- C10: No line of the generated output, for any configuration and any
starting cursor, is a dwell (`G4 P`) line: filtering the run for dwell lines
yields nothing, even though `Cmd.dwell` is part of the output format. -/
theorem run_no_dwell (cfg : Config) (s : ToolPos) :
    (run cfg).filter isDwell = [] ∧ ((mainProg cfg) s).2.filter isDwell = [] :=
  ⟨noDwell_mainProg cfg (initState cfg), noDwell_mainProg cfg s⟩

/-- C2: When the extrusion multiplier is non-negative (as it is for any
physically meaningful configuration), the cumulative extrusion values carried
by the successive extruding moves of a whole run, prefixed with the initial
stored extrusion length `0`, form a non-decreasing sequence: every move
either keeps the stored extrusion length or increases it. -/
theorem run_extrusion_monotone (cfg : Config) (hm : 0 ≤ EXTRUSIONMULT cfg) :
    List.Chain' (· ≤ ·) (0 :: extrusionTargets (run cfg)) :=
  ((monoE_mainProg cfg hm) (initState cfg)).1

/-- Witness for `run_extrusion_monotone` at the configuration of the script
itself. -/
theorem run_extrusion_monotone_witness :
    List.Chain' (· ≤ ·) (0 :: extrusionTargets (run defaultConfig)) :=
  run_extrusion_monotone defaultConfig (by
    simp only [EXTRUSIONMULT, defaultConfig]
    positivity)

lemma mainProg_head (cfg : Config) (s : ToolPos) :
    ((mainProg cfg) s).2.head? = some (Cmd.raw STARTG) := rfl

/-- C6: The base offset is `((bedX - totalx)/2, (bedY - totaly)/2)` in
the cursor `main` builds before emitting anything, no fragment of the run
ever changes it (so the final cursor carries the same base), and whenever
the bed is `200 × 250` and the bounding box is `140 × 73` the base offset is
exactly `(30, 88.5)`. -/
theorem base_offset_fixed (cfg : Config) :
    (initState cfg).baseX = (cfg.bedx - totalx cfg) / 2 ∧
    (initState cfg).baseY = (cfg.bedy - totaly cfg) / 2 ∧
    (∀ s, ((mainProg cfg) s).1.baseX = s.baseX ∧ ((mainProg cfg) s).1.baseY = s.baseY) ∧
    (finalState cfg).baseX = (initState cfg).baseX ∧
    (finalState cfg).baseY = (initState cfg).baseY ∧
    (cfg.bedx = 200 → cfg.bedy = 250 → totalx cfg = 140 → totaly cfg = 73 →
      (initState cfg).baseX = 30 ∧ (initState cfg).baseY = 88.5) := by
  refine ⟨rfl, rfl, keepsBase_mainProg cfg,
    (keepsBase_mainProg cfg (initState cfg)).1,
    (keepsBase_mainProg cfg (initState cfg)).2, ?_⟩
  intro hx hy htx hty
  constructor
  · show (cfg.bedx - totalx cfg) / 2 = 30
    rw [hx, htx]; norm_num
  · show (cfg.bedy - totaly cfg) / 2 = 88.5
    rw [hy, hty]; norm_num

/-- Witness for `base_offset_fixed`: `centeringCfg` really has bounding box
`140 × 73` on a `200 × 250` bed, and its base offset is `(30, 88.5)`. -/
theorem base_offset_fixed_witness :
    totalx centeringCfg = 140 ∧ totaly centeringCfg = 73 ∧
    (initState centeringCfg).baseX = 30 ∧ (initState centeringCfg).baseY = 88.5 := by
  have htx : totalx centeringCfg = 140 := by
    simp [totalx, centeringCfg, defaultConfig]; norm_num
  have hty : totaly centeringCfg = 73 := by
    simp [totaly, centeringCfg, defaultConfig]; norm_num
  obtain ⟨h1, h2⟩ := (base_offset_fixed centeringCfg).2.2.2.2.2 rfl rfl htx hty
  exact ⟨htx, hty, h1, h2⟩

/-- C9: The run is a pure function of the configuration record: two runs
with the same configuration produce identical command sequences.  In the
model there is no other input (no randomness, no clock), so this is the
whole determinism statement. -/
theorem run_deterministic (c₁ c₂ : Config) (h : c₁ = c₂) : run c₁ = run c₂ := by
  rw [h]

/-- Witness for `run_deterministic` at the spec scenario configuration (bed
`200 × 250`, speeds `[20, 40, 60]`, segment length `20`, repeat `3`). -/
theorem run_deterministic_witness : run roundTripCfg = run roundTripCfg :=
  run_deterministic roundTripCfg roundTripCfg rfl

/-- C1 (amended): The generator performs no configuration validation:
for every configuration, valid or not, the run emits output and begins with
the fixed header block. -/
theorem run_always_emits (cfg : Config) :
    (run cfg).head? = some (Cmd.raw STARTG) ∧ run cfg ≠ [] := by
  have h : (run cfg).head? = some (Cmd.raw STARTG) := mainProg_head cfg (initState cfg)
  refine ⟨h, ?_⟩
  intro hnil
  rw [hnil] at h
  simp at h

/-- C1 (counterexample): A configuration whose pattern bounding box
exceeds the bed is not rejected: the run still emits output, refuting the
claim that such configurations produce no output command. -/
theorem oversize_cfg_still_emits :
    oversizeCfg.bedx < totalx oversizeCfg ∧ run oversizeCfg ≠ [] := by
  constructor
  · have h : totalx oversizeCfg = 160 := by
      simp [totalx, oversizeCfg, defaultConfig]; norm_num
    rw [h]
    show (1 : ℝ) < 160
    norm_num
  · intro hnil
    have h : (run oversizeCfg).head? = some (Cmd.raw STARTG) :=
      mainProg_head oversizeCfg (initState oversizeCfg)
    rw [hnil] at h
    simp at h

lemma posEff_emit (c : Cmd) : PosEff (emit c) 0 0 := by
  intro s; simp [emit]

lemma posEff_setspeed (v : ℝ) : PosEff (setspeed v) 0 0 := by
  intro s; simp [setspeed, emit]

lemma posEff_skip : PosEff skip 0 0 := by
  intro s; simp [skip]

lemma posEff_moverel (cfg : Config) (x y : ℝ) (ext : Option ℝ) :
    PosEff (moverel cfg x y ext) x y := by
  intro s; cases ext <;> simp [moverel, moveabs]

lemma posEff_seq {p q : Prog} {a b c d : ℝ} (hp : PosEff p a b) (hq : PosEff q c d) :
    PosEff (seq p q) (a + c) (b + d) := by
  intro s
  have h1 := hp s
  have h2 := hq (p s).1
  constructor
  · show (q (p s).1).1.currentX = _
    rw [h2.1, h1.1]; ring
  · show (q (p s).1).1.currentY = _
    rw [h2.2, h1.2]; ring

lemma posEff_congr {p : Prog} {a b c d : ℝ} (h : PosEff p a b) (ha : a = c) (hb : b = d) :
    PosEff p c d := ha ▸ hb ▸ h

lemma posEff_cons {p : Prog} {ps : List Prog} {a b c d : ℝ}
    (hp : PosEff p a b) (hps : PosEff (runAll ps) c d) :
    PosEff (runAll (p :: ps)) (a + c) (b + d) :=
  posEff_seq hp hps

lemma posEff_append {l₁ l₂ : List Prog} {a b c d : ℝ}
    (h₁ : PosEff (runAll l₁) a b) (h₂ : PosEff (runAll l₂) c d) :
    PosEff (runAll (l₁ ++ l₂)) (a + c) (b + d) := by
  intro s
  rw [runAll_append]
  exact posEff_seq h₁ h₂ s

lemma posEff_semicircle (cfg : Config) (x y : ℝ) (ext : Option ℝ) :
    PosEff (semicircle cfg x y ext) 0 y := by
  intro s
  have hsplit :
      semicircle cfg x y ext s =
        seq (runAll ((List.range cfg.semicirclepoints).map
              (semistep cfg x y s.currentX s.currentY ext)))
          (runAll [semiclose cfg y s.currentX s.currentY ext]) s := by
    show runAll _ s = _
    rw [runAll_append]
  set s₁ := (runAll ((List.range cfg.semicirclepoints).map
      (semistep cfg x y s.currentX s.currentY ext)) s).1
  have hfst : (semicircle cfg x y ext s).1 =
      (semiclose cfg y s.currentX s.currentY ext s₁).1 := by
    rw [hsplit, seq_fst, runAll_singleton]
  constructor
  · rw [hfst, (semiclose_fst cfg y s.currentX s.currentY ext s₁).1]; ring
  · rw [hfst, (semiclose_fst cfg y s.currentX s.currentY ext s₁).2]

lemma constFlatMap_succ {α : Type} (blk : List α) (n : ℕ) :
    (List.range (n + 1)).flatMap (fun _ => blk)
      = blk ++ (List.range n).flatMap (fun _ => blk) := by
  rw [List.range_succ_eq_map]
  simp [List.flatMap_cons, List.flatMap_map]

lemma posEff_testloop (cfg : Config) (d : ℝ) : ∀ T : ℕ,
    PosEff (runAll ((List.range T).flatMap (fun _ =>
        [moverel cfg d 0 none, moverel cfg d 0 (some 1)])))
      (2 * T * d) 0 := by
  intro T
  induction T with
  | zero =>
      refine posEff_congr posEff_skip ?_ ?_ <;> simp
  | succ n ih =>
      rw [constFlatMap_succ]
      have hblk : PosEff (runAll [moverel cfg d 0 none, moverel cfg d 0 (some 1)])
          (d + (d + 0)) (0 + (0 + 0)) :=
        posEff_cons (posEff_moverel cfg d 0 none)
          (posEff_cons (posEff_moverel cfg d 0 (some 1)) posEff_skip)
      refine posEff_congr (posEff_append hblk ih) ?_ ?_
      · push_cast; ring
      · ring

lemma posEff_laneBody (cfg : Config) (i : ℕ) (v : ℝ) :
    PosEff (runAll (laneBody cfg i v)) 0 (2 * cfg.lanewidth) := by
  have hA : PosEff (runAll [emit (Cmd.raw ("; Start run " ++ toString i)), setspeed v])
      (0 + (0 + 0)) (0 + (0 + 0)) :=
    posEff_cons (posEff_emit _) (posEff_cons (posEff_setspeed v) posEff_skip)
  have hB := posEff_testloop cfg cfg.testlength cfg.testtry
  have hC : PosEff (runAll
      [moverel cfg cfg.testlength 0 none,
       setspeed cfg.rulerspeed,
       moverel cfg cfg.lanewidth 0 (some 1),
       semicircle cfg (cfg.lanewidth / 2) cfg.lanewidth (some 1),
       moverel cfg (-cfg.lanewidth) 0 (some 1),
       setspeed v])
      (cfg.testlength + (0 + (cfg.lanewidth + (0 + (-cfg.lanewidth + (0 + 0))))))
      (0 + (0 + (0 + (cfg.lanewidth + (0 + (0 + 0)))))) :=
    posEff_cons (posEff_moverel _ _ _ _)
      (posEff_cons (posEff_setspeed _)
        (posEff_cons (posEff_moverel _ _ _ _)
          (posEff_cons (posEff_semicircle _ _ _ _)
            (posEff_cons (posEff_moverel _ _ _ _)
              (posEff_cons (posEff_setspeed _) posEff_skip)))))
  have hD := posEff_testloop cfg (-cfg.testlength) cfg.testtry
  have hE : PosEff (runAll
      [moverel cfg (-cfg.testlength) 0 none,
       setspeed cfg.rulerspeed,
       moverel cfg (-cfg.lanewidth) 0 (some 1),
       semicircle cfg (-(cfg.lanewidth / 2)) cfg.lanewidth (some 1),
       moverel cfg cfg.lanewidth 0 (some 1)])
      (-cfg.testlength + (0 + (-cfg.lanewidth + (0 + (cfg.lanewidth + 0)))))
      (0 + (0 + (0 + (cfg.lanewidth + (0 + 0))))) :=
    posEff_cons (posEff_moverel _ _ _ _)
      (posEff_cons (posEff_setspeed _)
        (posEff_cons (posEff_moverel _ _ _ _)
          (posEff_cons (posEff_semicircle _ _ _ _)
            (posEff_cons (posEff_moverel _ _ _ _) posEff_skip))))
  refine posEff_congr
    (posEff_append (posEff_append (posEff_append (posEff_append hA hB) hC) hD) hE) ?_ ?_
  · ring
  · ring

lemma posEff_laneList (cfg : Config) : ∀ l : List (ℕ × ℝ),
    PosEff (runAll (l.flatMap (fun p => laneBody cfg p.1 p.2)))
      0 (2 * l.length * cfg.lanewidth) := by
  intro l
  induction l with
  | nil =>
      refine posEff_congr posEff_skip ?_ ?_ <;> simp
  | cons hd tl ih =>
      rw [List.flatMap_cons]
      refine posEff_congr (posEff_append (posEff_laneBody cfg hd.1 hd.2) ih) ?_ ?_
      · ring
      · simp only [List.length_cons]; push_cast; ring

lemma speedVals_append (l₁ l₂ : List Cmd) :
    speedVals (l₁ ++ l₂) = speedVals l₁ ++ speedVals l₂ :=
  List.filterMap_append l₁ l₂ _

lemma speedVals_runAll_cons (p : Prog) (ps : List Prog) (s : ToolPos) :
    speedVals ((runAll (p :: ps)) s).2
      = speedVals (p s).2 ++ speedVals ((runAll ps) (p s).1).2 := by
  rw [runAll_cons, seq_snd, speedVals_append]

lemma speedVals_runAll_append (l₁ l₂ : List Prog) (s : ToolPos) :
    speedVals ((runAll (l₁ ++ l₂)) s).2
      = speedVals ((runAll l₁) s).2 ++ speedVals ((runAll l₂) ((runAll l₁) s).1).2 := by
  rw [runAll_append, seq_snd, speedVals_append]

lemma speedVals_moverel (cfg : Config) (x y : ℝ) (ext : Option ℝ) (s : ToolPos) :
    speedVals ((moverel cfg x y ext) s).2 = [] := by
  cases ext <;> rfl

lemma noSpeed_seq (p q : Prog) (hp : NoSpeed p) (hq : NoSpeed q) : NoSpeed (seq p q) := by
  intro s
  rw [seq_snd, speedVals_append, hp s, hq (p s).1, List.append_nil]

lemma noSpeed_skip : NoSpeed skip := fun _ => rfl

lemma noSpeed_runAll (ps : List Prog) (h : ∀ p ∈ ps, NoSpeed p) : NoSpeed (runAll ps) := by
  induction ps with
  | nil => exact noSpeed_skip
  | cons p ps ih =>
      exact noSpeed_seq _ _ (h p (List.mem_cons_self p ps))
        (ih fun q hq => h q (List.mem_cons_of_mem p hq))

lemma noSpeed_moverelD (cfg : Config) (f g : ToolPos → ℝ) (ext : Option ℝ) :
    NoSpeed (fun s => moverel cfg (f s) (g s) ext s) := by
  intro s
  cases ext <;> rfl

lemma noSpeed_semicircle (cfg : Config) (x y : ℝ) (ext : Option ℝ) :
    NoSpeed (semicircle cfg x y ext) := by
  intro s
  have h : NoSpeed (runAll
      ((List.range cfg.semicirclepoints).map (semistep cfg x y s.currentX s.currentY ext)
        ++ [semiclose cfg y s.currentX s.currentY ext])) := by
    refine noSpeed_runAll _ ?_
    intro p hp
    rcases List.mem_append.1 hp with hp | hp
    · rcases List.mem_map.1 hp with ⟨i, _, rfl⟩
      exact noSpeed_moverelD cfg _ _ ext
    · rcases List.mem_singleton.1 hp with rfl
      exact noSpeed_moverelD cfg _ _ ext
  exact h s

lemma noSpeed_testloop (cfg : Config) (d : ℝ) (T : ℕ) :
    NoSpeed (runAll ((List.range T).flatMap (fun _ =>
        [moverel cfg d 0 none, moverel cfg d 0 (some 1)]))) := by
  refine noSpeed_runAll _ ?_
  intro p hp
  rcases List.mem_flatMap.1 hp with ⟨j, _, hmem⟩
  fin_cases hmem
  · exact fun s => speedVals_moverel cfg d 0 none s
  · exact fun s => speedVals_moverel cfg d 0 (some 1) s

lemma speedVals_testloop_eq (cfg : Config) (d : ℝ) (T : ℕ) (s : ToolPos) :
    speedVals ((runAll ((List.range T).flatMap (fun _ =>
        [moverel cfg d 0 none, moverel cfg d 0 (some 1)]))) s).2 = [] :=
  noSpeed_testloop cfg d T s

lemma speedVals_semicircle_eq (cfg : Config) (x y : ℝ) (ext : Option ℝ) (s : ToolPos) :
    speedVals ((semicircle cfg x y ext) s).2 = [] :=
  noSpeed_semicircle cfg x y ext s

lemma speedVals_raw (str : String) (s : ToolPos) :
    speedVals ((emit (Cmd.raw str)) s).2 = [] := rfl

lemma speedVals_runAll_nil (s : ToolPos) :
    speedVals ((runAll []) s).2 = [] := rfl

lemma speedVals_setspeed_eq (v : ℝ) (s : ToolPos) :
    speedVals ((setspeed v) s).2 = [v * 60] := rfl

lemma speedVals_laneBody (cfg : Config) (i : ℕ) (v : ℝ) (s : ToolPos) :
    speedVals ((runAll (laneBody cfg i v)) s).2
      = [v * 60, cfg.rulerspeed * 60, v * 60, cfg.rulerspeed * 60] := by
  simp only [laneBody]
  rw [speedVals_runAll_append, speedVals_runAll_append, speedVals_runAll_append,
    speedVals_runAll_append]
  rw [speedVals_testloop_eq, speedVals_testloop_eq]
  simp [speedVals_runAll_cons, speedVals_moverel, speedVals_semicircle_eq,
    speedVals_setspeed_eq, speedVals_raw, speedVals_runAll_nil]

lemma speedVals_laneList (cfg : Config) : ∀ (l : List (ℕ × ℝ)) (s : ToolPos),
    speedVals ((runAll (l.flatMap (fun p => laneBody cfg p.1 p.2))) s).2
      = (l.map Prod.snd).flatMap
          (fun v => [v * 60, cfg.rulerspeed * 60, v * 60, cfg.rulerspeed * 60]) := by
  intro l
  induction l with
  | nil => intro s; rfl
  | cons hd tl ih =>
      intro s
      rw [List.flatMap_cons, speedVals_runAll_append, speedVals_laneBody, ih]
      rfl

/-- C4: The lane phase: its `G1 F` lines are, in order, exactly one
forward-lane speed, the connector speed, the same speed again for the
mirrored return lane, and the connector speed again, once per configured
speed in list order; and the cursor enters lane `i` at
`startY + 2 * i * LANEWIDTH`, so with a positive lane width the lanes sit at
strictly increasing, pairwise distinct Y offsets. -/
theorem lane_phase_structure (cfg : Config) (hw : 0 < cfg.lanewidth) (s : ToolPos) :
    speedVals ((runAll (lanePhase cfg)) s).2
      = cfg.testspeeds.flatMap
          (fun v => [v * 60, cfg.rulerspeed * 60, v * 60, cfg.rulerspeed * 60]) ∧
    (∀ i, i ≤ cfg.testspeeds.length →
      (laneEntryState cfg s i).currentY = s.currentY + 2 * (i : ℝ) * cfg.lanewidth) ∧
    (∀ i j, i < j → j ≤ cfg.testspeeds.length →
      (laneEntryState cfg s i).currentY < (laneEntryState cfg s j).currentY) := by
  have hY : ∀ i, i ≤ cfg.testspeeds.length →
      (laneEntryState cfg s i).currentY = s.currentY + 2 * (i : ℝ) * cfg.lanewidth := by
    intro i hi
    have h := (posEff_laneList cfg (cfg.testspeeds.enum.take i) s).2
    have hlen : (cfg.testspeeds.enum.take i).length = i := by
      simp only [List.length_take, List.enum_length]
      omega
    rw [hlen] at h
    exact h
  refine ⟨?_, hY, ?_⟩
  · show speedVals
        ((runAll (cfg.testspeeds.enum.flatMap (fun p => laneBody cfg p.1 p.2))) s).2 = _
    rw [speedVals_laneList, List.enum_map_snd]
  · intro i j hij hj
    rw [hY i (le_of_lt (lt_of_lt_of_le hij hj)), hY j hj]
    have hcast : (i : ℝ) < (j : ℝ) := by exact_mod_cast hij
    nlinarith [hw]

/-- Witness for `lane_phase_structure` at the spec scenario
`TESTSPEEDS = [20, 40]`, `TESTTRY = 2`. -/
theorem lane_phase_structure_witness :
    (0 : ℝ) < laneCfg.lanewidth ∧
    (speedVals ((runAll (lanePhase laneCfg)) (initState laneCfg)).2
      = laneCfg.testspeeds.flatMap
          (fun v => [v * 60, laneCfg.rulerspeed * 60, v * 60, laneCfg.rulerspeed * 60]) ∧
    (∀ i, i ≤ laneCfg.testspeeds.length →
      (laneEntryState laneCfg (initState laneCfg) i).currentY
        = (initState laneCfg).currentY + 2 * (i : ℝ) * laneCfg.lanewidth) ∧
    (∀ i j, i < j → j ≤ laneCfg.testspeeds.length →
      (laneEntryState laneCfg (initState laneCfg) i).currentY
        < (laneEntryState laneCfg (initState laneCfg) j).currentY)) :=
  ⟨by norm_num [laneCfg, defaultConfig],
   lane_phase_structure laneCfg (by norm_num [laneCfg, defaultConfig]) (initState laneCfg)⟩

lemma targets_append (l₁ l₂ : List Cmd) :
    targets (l₁ ++ l₂) = targets l₁ ++ targets l₂ :=
  List.filterMap_append l₁ l₂ _

lemma perpCount_nil (p : ℝ × ℝ) : perpCount p [] = 0 := rfl

lemma perpCount_cons (p q : ℝ × ℝ) (rest : List (ℝ × ℝ)) :
    perpCount p (q :: rest)
      = (if p.1 = q.1 ∧ p.2 ≠ q.2 then 1 else 0) + perpCount q rest := rfl

lemma ruler_block_spec (cfg : Config) (hw : cfg.lanewidth ≠ 0) (s : ToolPos)
    (rest : List (ℝ × ℝ)) :
    perpCount (s.baseX + s.currentX, s.baseY + s.currentY)
        (targets ((runAll
          [moverel cfg 0 (-cfg.lanewidth) (some 1),
           moverel cfg (-cfg.testlength) 0 (some 1),
           moverel cfg 0 cfg.lanewidth (some 1),
           moverel cfg (-cfg.testlength) 0 (some 1)]) s).2 ++ rest)
      = 2 + perpCount
          (((runAll
          [moverel cfg 0 (-cfg.lanewidth) (some 1),
           moverel cfg (-cfg.testlength) 0 (some 1),
           moverel cfg 0 cfg.lanewidth (some 1),
           moverel cfg (-cfg.testlength) 0 (some 1)]) s).1.baseX
            + ((runAll
          [moverel cfg 0 (-cfg.lanewidth) (some 1),
           moverel cfg (-cfg.testlength) 0 (some 1),
           moverel cfg 0 cfg.lanewidth (some 1),
           moverel cfg (-cfg.testlength) 0 (some 1)]) s).1.currentX,
           ((runAll
          [moverel cfg 0 (-cfg.lanewidth) (some 1),
           moverel cfg (-cfg.testlength) 0 (some 1),
           moverel cfg 0 cfg.lanewidth (some 1),
           moverel cfg (-cfg.testlength) 0 (some 1)]) s).1.baseY
            + ((runAll
          [moverel cfg 0 (-cfg.lanewidth) (some 1),
           moverel cfg (-cfg.testlength) 0 (some 1),
           moverel cfg 0 cfg.lanewidth (some 1),
           moverel cfg (-cfg.testlength) 0 (some 1)]) s).1.currentY) rest ∧
    ((runAll
          [moverel cfg 0 (-cfg.lanewidth) (some 1),
           moverel cfg (-cfg.testlength) 0 (some 1),
           moverel cfg 0 cfg.lanewidth (some 1),
           moverel cfg (-cfg.testlength) 0 (some 1)]) s).1.currentX
        = s.currentX - 2 * cfg.testlength ∧
    ((runAll
          [moverel cfg 0 (-cfg.lanewidth) (some 1),
           moverel cfg (-cfg.testlength) 0 (some 1),
           moverel cfg 0 cfg.lanewidth (some 1),
           moverel cfg (-cfg.testlength) 0 (some 1)]) s).1.currentY = s.currentY ∧
    ((runAll
          [moverel cfg 0 (-cfg.lanewidth) (some 1),
           moverel cfg (-cfg.testlength) 0 (some 1),
           moverel cfg 0 cfg.lanewidth (some 1),
           moverel cfg (-cfg.testlength) 0 (some 1)]) s).1.baseX = s.baseX ∧
    ((runAll
          [moverel cfg 0 (-cfg.lanewidth) (some 1),
           moverel cfg (-cfg.testlength) 0 (some 1),
           moverel cfg 0 cfg.lanewidth (some 1),
           moverel cfg (-cfg.testlength) 0 (some 1)]) s).1.baseY = s.baseY := by
  refine ⟨?_, ?_, ?_, ?_, ?_⟩ <;>
    simp [runAll, seq, skip, moverel, moveabs, targets, cmdTarget, perpCount_cons, hw] <;>
    ring

lemma ruler_loop_spec (cfg : Config) (hw : cfg.lanewidth ≠ 0) : ∀ (T : ℕ),
    ∀ (s : ToolPos) (rest : List (ℝ × ℝ)),
    perpCount (s.baseX + s.currentX, s.baseY + s.currentY)
        (targets ((runAll ((List.range T).flatMap (fun _ =>
          [moverel cfg 0 (-cfg.lanewidth) (some 1),
           moverel cfg (-cfg.testlength) 0 (some 1),
           moverel cfg 0 cfg.lanewidth (some 1),
           moverel cfg (-cfg.testlength) 0 (some 1)]))) s).2 ++ rest)
      = 2 * T + perpCount
          (((runAll ((List.range T).flatMap (fun _ =>
            [moverel cfg 0 (-cfg.lanewidth) (some 1),
             moverel cfg (-cfg.testlength) 0 (some 1),
             moverel cfg 0 cfg.lanewidth (some 1),
             moverel cfg (-cfg.testlength) 0 (some 1)]))) s).1.baseX
            + ((runAll ((List.range T).flatMap (fun _ =>
            [moverel cfg 0 (-cfg.lanewidth) (some 1),
             moverel cfg (-cfg.testlength) 0 (some 1),
             moverel cfg 0 cfg.lanewidth (some 1),
             moverel cfg (-cfg.testlength) 0 (some 1)]))) s).1.currentX,
           ((runAll ((List.range T).flatMap (fun _ =>
            [moverel cfg 0 (-cfg.lanewidth) (some 1),
             moverel cfg (-cfg.testlength) 0 (some 1),
             moverel cfg 0 cfg.lanewidth (some 1),
             moverel cfg (-cfg.testlength) 0 (some 1)]))) s).1.baseY
            + ((runAll ((List.range T).flatMap (fun _ =>
            [moverel cfg 0 (-cfg.lanewidth) (some 1),
             moverel cfg (-cfg.testlength) 0 (some 1),
             moverel cfg 0 cfg.lanewidth (some 1),
             moverel cfg (-cfg.testlength) 0 (some 1)]))) s).1.currentY) rest ∧
    ((runAll ((List.range T).flatMap (fun _ =>
        [moverel cfg 0 (-cfg.lanewidth) (some 1),
         moverel cfg (-cfg.testlength) 0 (some 1),
         moverel cfg 0 cfg.lanewidth (some 1),
         moverel cfg (-cfg.testlength) 0 (some 1)]))) s).1.currentX
      = s.currentX - 2 * T * cfg.testlength ∧
    ((runAll ((List.range T).flatMap (fun _ =>
        [moverel cfg 0 (-cfg.lanewidth) (some 1),
         moverel cfg (-cfg.testlength) 0 (some 1),
         moverel cfg 0 cfg.lanewidth (some 1),
         moverel cfg (-cfg.testlength) 0 (some 1)]))) s).1.currentY = s.currentY ∧
    ((runAll ((List.range T).flatMap (fun _ =>
        [moverel cfg 0 (-cfg.lanewidth) (some 1),
         moverel cfg (-cfg.testlength) 0 (some 1),
         moverel cfg 0 cfg.lanewidth (some 1),
         moverel cfg (-cfg.testlength) 0 (some 1)]))) s).1.baseX = s.baseX ∧
    ((runAll ((List.range T).flatMap (fun _ =>
        [moverel cfg 0 (-cfg.lanewidth) (some 1),
         moverel cfg (-cfg.testlength) 0 (some 1),
         moverel cfg 0 cfg.lanewidth (some 1),
         moverel cfg (-cfg.testlength) 0 (some 1)]))) s).1.baseY = s.baseY := by
  intro T
  induction T with
  | zero =>
      intro s rest
      refine ⟨?_, ?_, ?_, ?_, ?_⟩ <;> simp [runAll, skip, targets]
  | succ n ih =>
      intro s rest
      rw [constFlatMap_succ]
      obtain ⟨hb1, hb2, hb3, hb4, hb5⟩ := ruler_block_spec cfg hw s
        (targets ((runAll ((List.range n).flatMap (fun _ =>
          [moverel cfg 0 (-cfg.lanewidth) (some 1),
           moverel cfg (-cfg.testlength) 0 (some 1),
           moverel cfg 0 cfg.lanewidth (some 1),
           moverel cfg (-cfg.testlength) 0 (some 1)])))
          ((runAll
          [moverel cfg 0 (-cfg.lanewidth) (some 1),
           moverel cfg (-cfg.testlength) 0 (some 1),
           moverel cfg 0 cfg.lanewidth (some 1),
           moverel cfg (-cfg.testlength) 0 (some 1)] s).1)).2 ++ rest)
      obtain ⟨hl1, hl2, hl3, hl4, hl5⟩ := ih
        ((runAll
          [moverel cfg 0 (-cfg.lanewidth) (some 1),
           moverel cfg (-cfg.testlength) 0 (some 1),
           moverel cfg 0 cfg.lanewidth (some 1),
           moverel cfg (-cfg.testlength) 0 (some 1)] s).1) rest
      refine ⟨?_, ?_, ?_, ?_, ?_⟩
      · rw [runAll_append, seq_fst, seq_snd, targets_append, List.append_assoc, hb1, hl1]
        ring
      · rw [runAll_append, seq_fst, hl2, hb2]
        push_cast; ring
      · rw [runAll_append, seq_fst, hl3, hb3]
      · rw [runAll_append, seq_fst, hl4, hb4]
      · rw [runAll_append, seq_fst, hl5, hb5]

lemma targets_raw (str : String) : targets [Cmd.raw str] = [] := rfl

lemma ruler_tail_spec (cfg : Config) (hw : cfg.lanewidth ≠ 0) (s : ToolPos) :
    perpCount (s.baseX + s.currentX, s.baseY + s.currentY)
        (targets ((runAll
          [moverel cfg 0 (-cfg.lanewidth) (some 1),
           moverel cfg (-cfg.testlength) 0 (some 1),
           moverel cfg 0 cfg.lanewidth (some 1),
           moverel cfg (-cfg.lanewidth) 0 (some 1)]) s).2) = 2 := by
  simp [runAll, seq, skip, moverel, moveabs, targets, cmdTarget, perpCount_cons,
    perpCount_nil, hw]

/-- C7 (amended): For every configuration with a non-degenerate lane
width, the leading ruler phase emits exactly `2 * TESTTRY + 2` perpendicular
extrude strokes: two per repeat from the loop, plus the trailing
down-stroke/up-stroke pair that closes the ruler. -/
theorem startRuler_perp_strokes (cfg : Config) (hw : cfg.lanewidth ≠ 0) (s : ToolPos) :
    perpCount (s.baseX + s.currentX, s.baseY + s.currentY)
        (targets ((runAll (startRuler cfg)) s).2) = 2 * cfg.testtry + 2 := by
  obtain ⟨hl1, hl2, hl3, hl4, hl5⟩ := ruler_loop_spec cfg hw cfg.testtry s
    (targets (((runAll
      [moverel cfg 0 (-cfg.lanewidth) (some 1),
       moverel cfg (-cfg.testlength) 0 (some 1),
       moverel cfg 0 cfg.lanewidth (some 1),
       moverel cfg (-cfg.lanewidth) 0 (some 1)])
      ((runAll ((List.range cfg.testtry).flatMap (fun _ =>
        [moverel cfg 0 (-cfg.lanewidth) (some 1),
         moverel cfg (-cfg.testlength) 0 (some 1),
         moverel cfg 0 cfg.lanewidth (some 1),
         moverel cfg (-cfg.testlength) 0 (some 1)]))) s).1).2))
  simp only [startRuler, runAll_cons, seq_snd, emit]
  rw [runAll_append, seq_snd, targets_append, targets_append, targets_raw,
    List.nil_append, hl1, ruler_tail_spec cfg hw]

/-- C7 (counterexample): With one repeat (`TESTTRY = 1`) the leading
ruler emits `4` perpendicular strokes, not `2 * TESTTRY = 2` as claimed: the
loop contributes two strokes and the trailing closing pair two more. -/
theorem startRuler_perp_cex :
    perpCount (0, 0)
        (targets ((runAll (startRuler rulerCexCfg)) (ToolPos.mk 0 0 0 0 0)).2) = 4 ∧
    2 * rulerCexCfg.testtry ≠ 4 := by
  constructor
  · norm_num [startRuler, rulerCexCfg, defaultConfig, runAll, seq, skip, emit,
      moverel, moveabs, targets, cmdTarget, perpCount_cons, perpCount_nil,
      List.range_succ, List.filterMap_cons, List.filterMap_nil,
      Prod.fst_zero, Prod.snd_zero]
  · show 2 * 1 ≠ 4
    norm_num

/-- Witness for `startRuler_perp_strokes` at the script configuration
(`TESTTRY = 3`): the leading ruler draws `8` perpendicular strokes. -/
theorem startRuler_perp_strokes_witness :
    defaultConfig.lanewidth ≠ 0 ∧
    perpCount ((ToolPos.mk 0 0 0 0 0).baseX + (ToolPos.mk 0 0 0 0 0).currentX,
               (ToolPos.mk 0 0 0 0 0).baseY + (ToolPos.mk 0 0 0 0 0).currentY)
        (targets ((runAll (startRuler defaultConfig)) (ToolPos.mk 0 0 0 0 0)).2)
      = 2 * defaultConfig.testtry + 2 :=
  ⟨by norm_num [defaultConfig],
   startRuler_perp_strokes defaultConfig (by norm_num [defaultConfig])
     (ToolPos.mk 0 0 0 0 0)⟩
